import Mathlib

/-!
Verification of the `objects` package (LoRa Cloud device-management wire
objects): the `Request` JSON codec (a tagged-union envelope with a `type`
discriminator and a `param` payload) and the `Hex` codec (byte sequences
carried as lowercase hexadecimal JSON strings).

The embedding works at two levels, both faithful to the Go source:
* the Hex codec is byte-level: text is a `List Nat` of byte values, exactly
  as Go manipulates `[]byte`/`string`;
* the Request codec works over a JSON value tree `Json` (the result of
  parsing the input bytes with `encoding/json`); the raw-bytes view needed
  for the `json.RawMessage` payload slice is recovered with `Json.render`.

Go machine integers are embedded as `Nat`/`Int` with explicit range checks,
mirroring `encoding/json`'s overflow checks on decode.
-/

/-- Bytes of an ASCII string, as Go sees a `string` (all inputs used in the
claims are ASCII, where code points and bytes coincide). -/
def strBytes (s : String) : List Nat := s.toList.map Char.toNat

/-- A byte sequence is well formed when every element is an actual byte value. -/
def bytesOk (l : List Nat) : Bool := l.all (fun v => decide (v < 256))

/-! ## Hex codec (`encoding/hex` as used by `Hex`) -/

/-- The `hextable` constant of `encoding/hex`: `"0123456789abcdef"`. -/
def hextable : List Nat := "0123456789abcdef".toList.map Char.toNat

/-- `fromHexChar` of `encoding/hex`: maps a byte in `[0-9a-fA-F]` to its
value, and anything else to `none`. -/
def fromHexChar (c : Nat) : Option Nat :=
  if 48 ≤ c ∧ c ≤ 57 then some (c - 48)
  else if 97 ≤ c ∧ c ≤ 102 then some (c - 97 + 10)
  else if 65 ≤ c ∧ c ≤ 70 then some (c - 65 + 10)
  else none

/-- Whether a byte is a valid hexadecimal digit. -/
def isHexByte (c : Nat) : Bool := (fromHexChar c).isSome

/-- Errors of `encoding/hex`: `ErrLength` (odd-length input) and
`InvalidByteError` (a byte outside `[0-9a-fA-F]`, carried in the error). -/
inductive HexErr where
  | errLength : HexErr
  | invalidByte (c : Nat) : HexErr
deriving DecidableEq, Repr

/-- `hex.EncodeToString`: two lowercase digits per byte, high nibble first.
Go indexes `hextable` with `v >> 4` and `v & 0x0f` of a byte `v < 256`; the
`% 16` keeps the function total on `Nat`. -/
def hexEncodeBytes : List Nat → List Nat
  | [] => []
  | v :: rest =>
      hextable.getD (v / 16 % 16) 48 :: hextable.getD (v % 16) 48 :: hexEncodeBytes rest

/-- `hex.Decode`/`hex.DecodeString`: consumes digit pairs, returning the bytes
decoded before the first error together with that error, exactly as Go
returns `dst[:n], err`.  An odd-length tail reports `InvalidByteError` when
the dangling byte is itself invalid, otherwise `ErrLength`. -/
def hexDecodeBytes : List Nat → List Nat × Option HexErr
  | [] => ([], none)
  | [c] =>
      match fromHexChar c with
      | none => ([], some (HexErr.invalidByte c))
      | some _ => ([], some HexErr.errLength)
  | p :: q :: rest =>
      match fromHexChar p with
      | none => ([], some (HexErr.invalidByte p))
      | some a =>
        match fromHexChar q with
        | none => ([], some (HexErr.invalidByte q))
        | some b =>
          let r := hexDecodeBytes rest
          ((a * 16 + b) :: r.1, r.2)

/-- `Hex` represents hex encoded bytes (`type Hex []byte`). -/
abbrev Hex := List Nat

/-- `Hex.MarshalJSON`: `fmt.Sprintf("\"%s\"", hex.EncodeToString(h))`, i.e.
the lowercase hex digits wrapped in double quotes (byte 34).  Never fails. -/
def Hex.marshalJSON (h : Hex) : List Nat :=
  34 :: (hexEncodeBytes h ++ [34])

/-- `strings.TrimPrefix(s, "\"")`: drops one leading quote byte if present. -/
def trimLeadQuote : List Nat → List Nat
  | 34 :: rest => rest
  | l => l

/-- `strings.TrimSuffix(s, "\"")`: drops one trailing quote byte if present. -/
def trimTrailQuote (l : List Nat) : List Nat :=
  if l.getLast? = some 34 then l.dropLast else l

/-- `Hex.UnmarshalJSON`: strips one leading and one trailing quote, then hex
decodes; the receiver is assigned the (possibly partial) decode result and
the error, if any, is returned (`*h, err = hex.DecodeString(s)`). -/
def Hex.unmarshalJSON (b : List Nat) : List Nat × Option HexErr :=
  hexDecodeBytes (trimTrailQuote (trimLeadQuote b))

/-! ## JSON value model -/

/-- A parsed JSON value, the view `encoding/json` has of the input bytes.
Numbers are embedded as integers: every numeric field of the `Request`
payloads has a Go integer type, and `encoding/json` rejects fractional or
out-of-range literals for them. -/
inductive Json where
  | null : Json
  | bool (b : Bool) : Json
  | num (n : Int) : Json
  | str (s : String) : Json
  | arr (xs : List Json) : Json
  | obj (fields : List (String × Json)) : Json

/-- Whether a JSON value is a string. -/
def Json.isStr : Json → Bool
  | .str _ => true
  | _ => false

/-- Whether a JSON value is `null`. -/
def Json.isNull : Json → Bool
  | .null => true
  | _ => false

/-- The noun `encoding/json` uses for a value in `UnmarshalTypeError.Value`. -/
def Json.goKind : Json → String
  | .null => "null"
  | .bool _ => "bool"
  | .num _ => "number"
  | .str _ => "string"
  | .arr _ => "array"
  | .obj _ => "object"

/-- UTF-8 bytes of a code point (pure arithmetic form). -/
def utf8Bytes (c : Nat) : List Nat :=
  if c < 128 then [c]
  else if c < 2048 then [192 + c / 64, 128 + c % 64]
  else if c < 65536 then [224 + c / 4096, 128 + c / 64 % 64, 128 + c % 64]
  else [240 + c / 262144, 128 + c / 4096 % 64, 128 + c / 64 % 64, 128 + c % 64]

/-- Bytes of one character inside a JSON string literal: quote and backslash
are escaped, control characters use the `\u00XX` form, everything else is
emitted as its UTF-8 bytes. -/
def escapeChar (c : Char) : List Nat :=
  if c.toNat = 34 then [92, 34]
  else if c.toNat = 92 then [92, 92]
  else if c.toNat < 32 then
    [92, 117, 48, 48, hextable.getD (c.toNat / 16 % 16) 48, hextable.getD (c.toNat % 16) 48]
  else utf8Bytes c.toNat

/-- Bytes of the body of a JSON string literal. -/
def escapeString (s : String) : List Nat :=
  s.toList.foldr (fun c acc => escapeChar c ++ acc) []

mutual

/-- The raw bytes a JSON value occupies on the wire.  This is the
`json.RawMessage` slice the envelope decoder hands to the payload decoders
(in particular to `Hex.UnmarshalJSON` for `FUOTA`). -/
def Json.render : Json → List Nat
  | .null => strBytes "null"
  | .bool true => strBytes "true"
  | .bool false => strBytes "false"
  | .num n => strBytes (toString n)
  | .str s => 34 :: (escapeString s ++ [34])
  | .arr xs => 91 :: (Json.renderArr xs ++ [93])
  | .obj fs => 123 :: (Json.renderObj fs ++ [125])

/-- Comma-separated rendering of array elements. -/
def Json.renderArr : List Json → List Nat
  | [] => []
  | [x] => Json.render x
  | x :: y :: rest => Json.render x ++ 44 :: Json.renderArr (y :: rest)

/-- Comma-separated rendering of object members. -/
def Json.renderObj : List (String × Json) → List Nat
  | [] => []
  | [(k, v)] => 34 :: (escapeString k ++ [34, 58]) ++ Json.render v
  | (k, v) :: m :: rest =>
      34 :: (escapeString k ++ [34, 58]) ++ Json.render v ++ 44 :: Json.renderObj (m :: rest)

end

/-! ## Request payload types -/

/-- The request type discriminator constants. -/
def ResetRequestType : String := "RESET"

/-- REJOIN discriminator. -/
def RejoinRequestType : String := "REJOIN"

/-- MUTE discriminator. -/
def MuteRequestType : String := "MUTE"

/-- GETINFO discriminator. -/
def GetInfoRequestType : String := "GETINFO"

/-- SETCONF discriminator. -/
def SetConfRequestType : String := "SETCONF"

/-- FILEDONE discriminator. -/
def FileDoneRequestType : String := "FILEDONE"

/-- FUOTA discriminator. -/
def FUOTARequestType : String := "FUOTA"

/-- Membership in the closed discriminator set. -/
def knownRequestType (t : String) : Bool :=
  t == ResetRequestType || t == RejoinRequestType || t == MuteRequestType ||
  t == GetInfoRequestType || t == SetConfRequestType || t == FileDoneRequestType ||
  t == FUOTARequestType

/-- Modelled from the spec: `types.EUI64` lives in `pkg/types`, outside the
source under verification.  The spec treats the join EUI as a scalar
configuration value carried as text; it is modelled as an 8-byte identifier
whose JSON form is a string of 16 hexadecimal digits (canonically upper
case, accepted in either case on decode). -/
structure EUI64 where
  bytes : List Nat
deriving DecidableEq, Repr

/-- The zero `EUI64`, the value a `SetConfRequestParam` starts from. -/
def EUI64.zero : EUI64 := ⟨List.replicate 8 0⟩

/-- Uppercase hexadecimal digit characters. -/
def upperHexChar (i : Nat) : Char := "0123456789ABCDEF".toList.getD i '0'

/-- Modelled from the spec: canonical text of an `EUI64`, two uppercase hex
digits per byte. -/
def euiEncodeChars : List Nat → List Char
  | [] => []
  | v :: rest => upperHexChar (v / 16 % 16) :: upperHexChar (v % 16) :: euiEncodeChars rest

/-- Modelled from the spec: JSON string body for an `EUI64`. -/
def euiEncode (e : EUI64) : String := String.mk (euiEncodeChars e.bytes)

/-- Modelled from the spec: pairwise hex decoding of an `EUI64` text. -/
def euiDecodeChars : List Char → Option (List Nat)
  | [] => some []
  | p :: q :: rest =>
      match fromHexChar p.toNat, fromHexChar q.toNat, euiDecodeChars rest with
      | some a, some b, some tl => some ((a * 16 + b) :: tl)
      | _, _, _ => none
  | _ => none

/-- Modelled from the spec: an `EUI64` text must be exactly 16 hex digits. -/
def euiDecode (s : String) : Option (List Nat) :=
  if s.toList.length = 16 then euiDecodeChars s.toList else none

/-- `ResetRequestParam` is a `uint8` (embedded as its value). -/
abbrev ResetRequestParam := Nat

/-- `GetInfoRequestParam` is a `[]string`. -/
abbrev GetInfoRequestParam := List String

/-- `SetConfRequestParam`: every scalar field is an optional pointer except
`JoinEUI`, which is a plain `types.EUI64` value (no absent state). -/
structure SetConfRequestParam where
  adrMode : Option Nat := none
  joinEUI : EUI64 := EUI64.zero
  interval : Option Nat := none
  region : Option Nat := none
  opMode : Option Nat := none
deriving DecidableEq, Repr

/-- `FileDoneRequestParam`: two signed 32-bit integers. -/
structure FileDoneRequestParam where
  sid : Int := 0
  sctr : Int := 0
deriving DecidableEq, Repr

/-- `FUOTARequestParam` is a `Hex` byte sequence. -/
abbrev FUOTARequestParam := Hex

/-- The `requestParam` interface: the closed union of payload values. -/
inductive RequestParam where
  | reset (p : ResetRequestParam) : RequestParam
  | getInfo (p : GetInfoRequestParam) : RequestParam
  | setConf (p : SetConfRequestParam) : RequestParam
  | fileDone (p : FileDoneRequestParam) : RequestParam
  | fuota (p : FUOTARequestParam) : RequestParam
deriving DecidableEq, Repr

/-- `Request` encapsulates a modem request: the discriminator and the payload
(`nil` interface when the variant carries none). -/
structure Request where
  type : String
  param : Option RequestParam
deriving DecidableEq, Repr

/-- A zero-valued `Request`, the receiver a fresh decode writes into. -/
def emptyRequest : Request := ⟨"", none⟩

/-! ## Request decoding -/

/-- Errors produced by the payload-stage `json.Unmarshal` call.
`missing` is the syntax error raised on a `nil` `RawMessage` (absent `param`
field); `typeMismatch` is `json.UnmarshalTypeError`, carrying the noun for
the offending JSON value and the name of the Go target type; `hexError` is
an `encoding/hex` error surfaced through `FUOTARequestParam.UnmarshalJSON`. -/
inductive PayloadErr where
  | missing : PayloadErr
  | typeMismatch (value : String) (goType : String) : PayloadErr
  | hexError (e : HexErr) : PayloadErr
deriving DecidableEq, Repr

/-- Errors of `Request.UnmarshalJSON`, named after the spec taxonomy:
`malformedEnvelope` is a failure of the outer `json.Unmarshal` into
`baseRequest`; `invalidRequestType` is `errInvalidRequestType` carrying the
offending discriminator; `malformedPayload` wraps the payload-stage error. -/
inductive DecodeErr where
  | malformedEnvelope : DecodeErr
  | invalidRequestType (t : String) : DecodeErr
  | malformedPayload (e : PayloadErr) : DecodeErr
deriving DecidableEq, Repr

/-- `baseRequest`: the generic envelope, with the payload kept as an opaque
`json.RawMessage` (`none` when the `param` key is absent). -/
structure baseRequest where
  type : String
  param : Option Json

/-- `encoding/json` matches object keys to struct field names
case-insensitively (the field tags `type` and `param` contain no letter
with a special Unicode fold, so the ASCII fold is exact here). -/
def jsonKeyMatch (k tag : String) : Bool :=
  String.mk (k.toList.map Char.toLower) == tag

/-- Every occurrence bound to the `Type` field must hold a string or
`null` (a JSON `null` is a no-op for a string target), or the envelope
unmarshal fails (`encoding/json` saves the first field type error). -/
def typeOccurrencesOk (fs : List (String × Json)) : Bool :=
  fs.all (fun kv => !(jsonKeyMatch kv.1 "type") || kv.2.isStr || kv.2.isNull)

/-- The last string occurrence bound to `Type` wins: `encoding/json`
overwrites on duplicate keys, and a `null` occurrence leaves the field
unchanged. -/
def lastTypeVal (fs : List (String × Json)) : String :=
  fs.foldl (fun acc kv =>
    if jsonKeyMatch kv.1 "type" then
      match kv.2 with
      | .str s => s
      | _ => acc
    else acc) ""

/-- The last occurrence bound to `Param` wins; `none` when no key binds it
(`json.RawMessage` accepts every value, `null` included). -/
def lastParamVal (fs : List (String × Json)) : Option Json :=
  fs.foldl (fun acc kv => if jsonKeyMatch kv.1 "param" then some kv.2 else acc) none

/-- The outer `json.Unmarshal(b, &br)`: succeeds on an object whose
`Type`-bound occurrences are strings or `null` (unknown keys ignored, key
match case-insensitive) and on a top-level `null` (which leaves the zero
`baseRequest`); fails on every other JSON value. -/
def parseBase : Json → Option baseRequest
  | .obj fs => if typeOccurrencesOk fs then some ⟨lastTypeVal fs, lastParamVal fs⟩ else none
  | .null => some ⟨"", none⟩
  | _ => none

/-- Keeps the first error, as `encoding/json` saves the first field error and
keeps decoding the remaining members. -/
def firstErr : Option PayloadErr → Option PayloadErr → Option PayloadErr
  | some e, _ => some e
  | none, e => e

/-- Payload decode for `ResetRequestParam` (named `uint8`): `null` is a
no-op, a number must lie in the unsigned 8-bit range, anything else is a
type mismatch. -/
def decodeResetJson : Json → ResetRequestParam × Option PayloadErr
  | .null => (0, none)
  | .num n =>
      if 0 ≤ n ∧ n < 256 then (n.toNat, none)
      else (0, some (.typeMismatch ("number " ++ toString n) "objects.ResetRequestParam"))
  | v => (0, some (.typeMismatch v.goKind "objects.ResetRequestParam"))

/-- Elementwise decode of a `[]string`: a non-string element contributes the
zero string and the first such element's type error, and decoding continues
(mirroring `encoding/json`). -/
def decodeGetInfoElems : List Json → List String × Option PayloadErr
  | [] => ([], none)
  | x :: rest =>
      match x with
      | .str s =>
          let r := decodeGetInfoElems rest
          (s :: r.1, r.2)
      | v =>
          let r := decodeGetInfoElems rest
          ("" :: r.1, some (.typeMismatch v.goKind "string"))

/-- Payload decode for `GetInfoRequestParam` (`[]string`). -/
def decodeGetInfoJson : Json → GetInfoRequestParam × Option PayloadErr
  | .null => ([], none)
  | .arr xs => decodeGetInfoElems xs
  | v => ([], some (.typeMismatch v.goKind "objects.GetInfoRequestParam"))

/-- Decode of a `*uint8` struct field: `null` sets the pointer to nil, an
in-range number sets it, anything else leaves it and reports the mismatch. -/
def decPtrUint8 (cur : Option Nat) : Json → Option Nat × Option PayloadErr
  | .null => (none, none)
  | .num n =>
      if 0 ≤ n ∧ n < 256 then (some n.toNat, none)
      else (cur, some (.typeMismatch ("number " ++ toString n) "uint8"))
  | v => (cur, some (.typeMismatch v.goKind "uint8"))

/-- Decode of a `*uint32` struct field. -/
def decPtrUint32 (cur : Option Nat) : Json → Option Nat × Option PayloadErr
  | .null => (none, none)
  | .num n =>
      if 0 ≤ n ∧ n < 4294967296 then (some n.toNat, none)
      else (cur, some (.typeMismatch ("number " ++ toString n) "uint32"))
  | v => (cur, some (.typeMismatch v.goKind "uint32"))

/-- Modelled from the spec: decode of the `types.EUI64` field.  `null` is a
no-op; a string must be 16 hex digits; anything else is a mismatch. -/
def decEUI64 (cur : EUI64) : Json → EUI64 × Option PayloadErr
  | .null => (cur, none)
  | .str s =>
      match euiDecode s with
      | some bs => (⟨bs⟩, none)
      | none => (cur, some (.typeMismatch "string" "types.EUI64"))
  | v => (cur, some (.typeMismatch v.goKind "types.EUI64"))

/-- Sequential decode of the members of a `SETCONF` payload object, matching
the JSON keys of `SetConfRequestParam` and ignoring unknown keys. -/
def decodeSetConfFields (p : SetConfRequestParam) :
    List (String × Json) → SetConfRequestParam × Option PayloadErr
  | [] => (p, none)
  | (k, v) :: rest =>
      if k == "adrmode" then
        let f := decPtrUint8 p.adrMode v
        let r := decodeSetConfFields { p with adrMode := f.1 } rest
        (r.1, firstErr f.2 r.2)
      else if k == "joineui" then
        let f := decEUI64 p.joinEUI v
        let r := decodeSetConfFields { p with joinEUI := f.1 } rest
        (r.1, firstErr f.2 r.2)
      else if k == "interval" then
        let f := decPtrUint8 p.interval v
        let r := decodeSetConfFields { p with interval := f.1 } rest
        (r.1, firstErr f.2 r.2)
      else if k == "region" then
        let f := decPtrUint8 p.region v
        let r := decodeSetConfFields { p with region := f.1 } rest
        (r.1, firstErr f.2 r.2)
      else if k == "opmode" then
        let f := decPtrUint32 p.opMode v
        let r := decodeSetConfFields { p with opMode := f.1 } rest
        (r.1, firstErr f.2 r.2)
      else decodeSetConfFields p rest

/-- Payload decode for `SetConfRequestParam`. -/
def decodeSetConfJson : Json → SetConfRequestParam × Option PayloadErr
  | .null => ({}, none)
  | .obj fs => decodeSetConfFields {} fs
  | v => ({}, some (.typeMismatch v.goKind "objects.SetConfRequestParam"))

/-- Decode of an `int32` struct field: `null` is a no-op, a number must lie
in the signed 32-bit range. -/
def decInt32 (cur : Int) : Json → Int × Option PayloadErr
  | .null => (cur, none)
  | .num n =>
      if -2147483648 ≤ n ∧ n < 2147483648 then (n, none)
      else (cur, some (.typeMismatch ("number " ++ toString n) "int32"))
  | v => (cur, some (.typeMismatch v.goKind "int32"))

/-- Sequential decode of the members of a `FILEDONE` payload object. -/
def decodeFileDoneFields (p : FileDoneRequestParam) :
    List (String × Json) → FileDoneRequestParam × Option PayloadErr
  | [] => (p, none)
  | (k, v) :: rest =>
      if k == "sid" then
        let f := decInt32 p.sid v
        let r := decodeFileDoneFields { p with sid := f.1 } rest
        (r.1, firstErr f.2 r.2)
      else if k == "sctr" then
        let f := decInt32 p.sctr v
        let r := decodeFileDoneFields { p with sctr := f.1 } rest
        (r.1, firstErr f.2 r.2)
      else decodeFileDoneFields p rest

/-- Payload decode for `FileDoneRequestParam`. -/
def decodeFileDoneJson : Json → FileDoneRequestParam × Option PayloadErr
  | .null => ({}, none)
  | .obj fs => decodeFileDoneFields {} fs
  | v => ({}, some (.typeMismatch v.goKind "objects.FileDoneRequestParam"))

/-- `FUOTARequestParam.UnmarshalJSON`: hands the raw payload bytes to
`Hex.UnmarshalJSON` and assigns the receiver only on success (a failed hex
decode is discarded here, unlike in `Hex.UnmarshalJSON` itself). -/
def decodeFuotaJson (j : Json) : FUOTARequestParam × Option PayloadErr :=
  let r := Hex.unmarshalJSON (Json.render j)
  match r.2 with
  | some e => ([], some (.hexError e))
  | none => (r.1, none)

/-- The payload-stage `json.Unmarshal(br.Param, r.Param)` for each variant:
a `nil` raw message (absent `param`) is a syntax error raised before any
interpretation. -/
def decodeResetParam : Option Json → ResetRequestParam × Option PayloadErr
  | none => (0, some .missing)
  | some j => decodeResetJson j

/-- GETINFO payload stage. -/
def decodeGetInfoParam : Option Json → GetInfoRequestParam × Option PayloadErr
  | none => ([], some .missing)
  | some j => decodeGetInfoJson j

/-- SETCONF payload stage. -/
def decodeSetConfParam : Option Json → SetConfRequestParam × Option PayloadErr
  | none => ({}, some .missing)
  | some j => decodeSetConfJson j

/-- FILEDONE payload stage. -/
def decodeFileDoneParam : Option Json → FileDoneRequestParam × Option PayloadErr
  | none => ({}, some .missing)
  | some j => decodeFileDoneJson j

/-- FUOTA payload stage. -/
def decodeFuotaParam : Option Json → FUOTARequestParam × Option PayloadErr
  | none => ([], some .missing)
  | some j => decodeFuotaJson j

/-- `Request.UnmarshalJSON`: unmarshal the generic envelope, set `r.Type`,
dispatch on the discriminator (allocating the variant's zero parameter and
pointing `r.Param` at it before the payload unmarshal, exactly as the Go
method does), and return the first error met.  The returned pair is the
receiver's final state together with the returned error. -/
def Request.unmarshalJSON (r : Request) (j : Json) : Request × Option DecodeErr :=
  match parseBase j with
  | none => (r, some .malformedEnvelope)
  | some br =>
    let r1 : Request := { r with type := br.type }
    if br.type == ResetRequestType then
      let d := decodeResetParam br.param
      ({ r1 with param := some (.reset d.1) }, d.2.map .malformedPayload)
    else if br.type == RejoinRequestType || br.type == MuteRequestType then
      (r1, none)
    else if br.type == GetInfoRequestType then
      let d := decodeGetInfoParam br.param
      ({ r1 with param := some (.getInfo d.1) }, d.2.map .malformedPayload)
    else if br.type == SetConfRequestType then
      let d := decodeSetConfParam br.param
      ({ r1 with param := some (.setConf d.1) }, d.2.map .malformedPayload)
    else if br.type == FileDoneRequestType then
      let d := decodeFileDoneParam br.param
      ({ r1 with param := some (.fileDone d.1) }, d.2.map .malformedPayload)
    else if br.type == FUOTARequestType then
      let d := decodeFuotaParam br.param
      ({ r1 with param := some (.fuota d.1) }, d.2.map .malformedPayload)
    else
      (r1, some (.invalidRequestType br.type))

/-! ## Request encoding -/

/-- The characters of the lowercase hex text of a byte sequence, used when a
`Hex` value is embedded in a JSON tree. -/
def hexEncodeString (h : Hex) : String := String.mk ((hexEncodeBytes h).map Char.ofNat)

/-- Marshalling of the `SETCONF` payload: optional pointers honour
`omitempty`, while `JoinEUI`, an 8-byte array, is never empty for
`omitempty` and is always emitted. -/
def setConfMarshalFields (p : SetConfRequestParam) : List (String × Json) :=
  (match p.adrMode with
   | some a => [("adrmode", Json.num a)]
   | none => []) ++
  [("joineui", Json.str (euiEncode p.joinEUI))] ++
  (match p.interval with
   | some a => [("interval", Json.num a)]
   | none => []) ++
  (match p.region with
   | some a => [("region", Json.num a)]
   | none => []) ++
  (match p.opMode with
   | some a => [("opmode", Json.num a)]
   | none => [])

/-- Marshalling of each payload variant to its JSON value (the `FUOTA`
variant goes through the Hex codec). -/
def RequestParam.marshalJSON : RequestParam → Json
  | .reset p => .num p
  | .getInfo xs => .arr (xs.map .str)
  | .setConf p => .obj (setConfMarshalFields p)
  | .fileDone p => .obj [("sid", .num p.sid), ("sctr", .num p.sctr)]
  | .fuota h => .str (hexEncodeString h)

/-- Default struct marshalling of `Request`: the discriminator under `type`,
the payload under `param` with `omitempty` dropping a `nil` interface. -/
def Request.marshalJSON (r : Request) : Json :=
  match r.param with
  | none => .obj [("type", .str r.type)]
  | some p => .obj [("type", .str r.type), ("param", p.marshalJSON)]

/-! ## Spec-side definitions used by the claim statements -/

/-- ASCII lowercasing of a byte, the "lowercase form" of hex text. -/
def toLowerByte (c : Nat) : Nat := if 65 ≤ c ∧ c ≤ 90 then c + 32 else c

/-- The single-member envelope `{"type": t}`. -/
def envForm1 (t : String) : Json := .obj [("type", .str t)]

/-- The two-member envelope `{"type": t, "param": p}`. -/
def envForm2 (t : String) (p : Json) : Json := .obj [("type", .str t), ("param", p)]

/-- Well-formedness of an in-memory `Request`: the discriminator matches the
payload variant and every numeric component fits its Go integer type. -/
def scParamOk (p : SetConfRequestParam) : Bool :=
  (match p.adrMode with
   | some a => decide (a < 256)
   | none => true) &&
  (p.joinEUI.bytes.length == 8) && bytesOk p.joinEUI.bytes &&
  (match p.interval with
   | some a => decide (a < 256)
   | none => true) &&
  (match p.region with
   | some a => decide (a < 256)
   | none => true) &&
  (match p.opMode with
   | some a => decide (a < 4294967296)
   | none => true)

/-- A `Request` value a caller may legitimately construct for encoding. -/
def Request.wellFormed (r : Request) : Bool :=
  match r.param with
  | none => r.type == RejoinRequestType || r.type == MuteRequestType
  | some (.reset p) => r.type == ResetRequestType && decide (p < 256)
  | some (.getInfo _) => r.type == GetInfoRequestType
  | some (.setConf p) => r.type == SetConfRequestType && scParamOk p
  | some (.fileDone p) => r.type == FileDoneRequestType &&
      decide (-2147483648 ≤ p.sid ∧ p.sid < 2147483648) &&
      decide (-2147483648 ≤ p.sctr ∧ p.sctr < 2147483648)
  | some (.fuota h) => r.type == FUOTARequestType && bytesOk h

/-! ## Hex codec lemmas -/

theorem digit_inv : ∀ i < 16, fromHexChar (hextable.getD i 48) = some i := by
  decide

theorem hexDecode_encode {b : List Nat} (hb : bytesOk b = true) :
    hexDecodeBytes (hexEncodeBytes b) = (b, none) := by
  induction b with
  | nil => rfl
  | cons v rest ih =>
    simp only [bytesOk, List.all_cons, Bool.and_eq_true, decide_eq_true_eq] at hb
    have hv : v < 256 := hb.1
    have hrest := ih (by simp [bytesOk, hb.2])
    have h1 : v / 16 % 16 < 16 := Nat.mod_lt _ (by omega)
    have h2 : v % 16 < 16 := Nat.mod_lt _ (by omega)
    simp only [hexEncodeBytes, hexDecodeBytes, digit_inv _ h1, digit_inv _ h2, hrest]
    have : v / 16 % 16 * 16 + v % 16 = v := by omega
    simp [this]

theorem hexDecode_none_iff (l : List Nat) :
    (hexDecodeBytes l).2.isNone = (decide (l.length % 2 = 0) && l.all isHexByte) := by
  induction l using hexDecodeBytes.induct with
  | case1 => rfl
  | case2 c h => simp [hexDecodeBytes, h, isHexByte]
  | case3 c v h => simp [hexDecodeBytes, h, isHexByte]
  | case4 p q rest h => simp [hexDecodeBytes, h, isHexByte]
  | case5 p q rest a h1 h2 => simp [hexDecodeBytes, h1, h2, isHexByte]
  | case6 p q rest a h1 b h2 ih =>
    have hmod : (rest.length + 1 + 1) % 2 = rest.length % 2 := by omega
    simp [hexDecodeBytes, h1, h2, isHexByte, ih, hmod]

theorem hexDecode_append {s : List Nat} (t : List Nat)
    (hlen : s.length % 2 = 0) (hhex : s.all isHexByte = true) :
    hexDecodeBytes (s ++ t) =
      ((hexDecodeBytes s).1 ++ (hexDecodeBytes t).1, (hexDecodeBytes t).2) := by
  induction s using hexDecodeBytes.induct with
  | case1 => simp [hexDecodeBytes]
  | case2 c h => simp at hlen
  | case3 c v h => simp at hlen
  | case4 p q rest h => simp [isHexByte, h] at hhex
  | case5 p q rest a h1 h2 => simp [isHexByte, h1, h2] at hhex
  | case6 p q rest a h1 b h2 ih =>
    simp only [List.length_cons] at hlen
    simp only [List.all_cons, Bool.and_eq_true] at hhex
    have ih' := ih (by omega) hhex.2.2
    simp [hexDecodeBytes, h1, h2, ih']

theorem fromHexChar_lower {c a : Nat} (h : fromHexChar c = some a) :
    a < 16 ∧ hextable.getD a 48 = toLowerByte c := by
  unfold fromHexChar at h
  split_ifs at h with h1 h2 h3
  · obtain ⟨hc1, hc2⟩ := h1
    obtain rfl : c - 48 = a := Option.some.inj h
    interval_cases c <;> simp [hextable, toLowerByte]
  · obtain ⟨hc1, hc2⟩ := h2
    obtain rfl : c - 97 + 10 = a := Option.some.inj h
    interval_cases c <;> simp [hextable, toLowerByte]
  · obtain ⟨hc1, hc2⟩ := h3
    obtain rfl : c - 65 + 10 = a := Option.some.inj h
    interval_cases c <;> simp [hextable, toLowerByte]

theorem hexEncode_decode {l : List Nat} (hlen : l.length % 2 = 0)
    (hhex : l.all isHexByte = true) :
    hexEncodeBytes (hexDecodeBytes l).1 = l.map toLowerByte := by
  induction l using hexDecodeBytes.induct with
  | case1 => rfl
  | case2 c h => simp at hlen
  | case3 c v h => simp at hlen
  | case4 p q rest h => simp [isHexByte, h] at hhex
  | case5 p q rest a h1 h2 => simp [isHexByte, h1, h2] at hhex
  | case6 p q rest a h1 b h2 ih =>
    simp only [List.length_cons] at hlen
    simp only [List.all_cons, Bool.and_eq_true] at hhex
    have ih' := ih (by omega) hhex.2.2
    obtain ⟨ha, hla⟩ := fromHexChar_lower h1
    obtain ⟨hb, hlb⟩ := fromHexChar_lower h2
    have e1 : (a * 16 + b) / 16 % 16 = a := by omega
    have e2 : (a * 16 + b) % 16 = b := by omega
    simp only [hexDecodeBytes, h1, h2]
    simp only [hexEncodeBytes, e1, e2, List.map_cons]
    rw [hla, hlb, ih']

theorem hexEncode_length (b : List Nat) :
    (hexEncodeBytes b).length = 2 * b.length := by
  induction b with
  | nil => rfl
  | cons v rest ih => simp [hexEncodeBytes, ih]; omega

theorem hextable_getD_mem (i : Nat) : hextable.getD i 48 ∈ hextable := by
  rcases Nat.lt_or_ge i 16 with h | h
  · interval_cases i <;> decide
  · have hlen : hextable.length ≤ i := by
      have : hextable.length = 16 := by decide
      omega
    rw [List.getD_eq_default _ _ hlen]
    decide

theorem hexEncode_mem {b : List Nat} {c : Nat} (hc : c ∈ hexEncodeBytes b) :
    c ∈ hextable := by
  induction b with
  | nil => simp [hexEncodeBytes] at hc
  | cons v rest ih =>
    simp only [hexEncodeBytes, List.mem_cons] at hc
    rcases hc with rfl | rfl | hc
    · exact hextable_getD_mem _
    · exact hextable_getD_mem _
    · exact ih hc

theorem hexEncode_all_hextable (b : List Nat) :
    (hexEncodeBytes b).all (fun c => hextable.contains c) = true := by
  rw [List.all_eq_true]
  intro c hc
  simpa using List.elem_eq_true_of_mem (hexEncode_mem hc)

theorem trimLead_cons (l : List Nat) : trimLeadQuote (34 :: l) = l := rfl

theorem trimTrail_concat (l : List Nat) : trimTrailQuote (l ++ [34]) = l := by
  simp [trimTrailQuote]

theorem hex_marshal_unmarshal {b : List Nat} (hb : bytesOk b = true) :
    Hex.unmarshalJSON (Hex.marshalJSON b) = (b, none) := by
  simp only [Hex.unmarshalJSON, Hex.marshalJSON, trimLead_cons, trimTrail_concat]
  exact hexDecode_encode hb

theorem quote_not_hex : isHexByte 34 = false := by decide

theorem trim_of_all_hex {l : List Nat} (h : l.all isHexByte = true) :
    trimTrailQuote (trimLeadQuote l) = l := by
  have h1 : trimLeadQuote l = l := by
    cases l with
    | nil => rfl
    | cons c rest =>
      simp only [List.all_cons, Bool.and_eq_true] at h
      have hc : c ≠ 34 := by
        intro hc
        rw [hc] at h
        simp [quote_not_hex] at h
      unfold trimLeadQuote
      split
      · next heq => exact absurd (List.cons.inj heq).1 hc
      · rfl
  rw [h1]
  unfold trimTrailQuote
  split
  · next heq =>
    exfalso
    obtain ⟨hne, hx⟩ := List.mem_getLast?_eq_getLast (by rw [heq]; rfl)
    have hmem : (34 : Nat) ∈ l := hx ▸ List.getLast_mem hne
    have := List.all_eq_true.mp h _ hmem
    simp [quote_not_hex] at this
  · rfl

/-! ## EUI64 and escaping lemmas -/

theorem eui_digit_inv : ∀ i < 16, fromHexChar (upperHexChar i).toNat = some i := by
  decide

theorem euiDecode_encode_chars {bs : List Nat} (hb : bytesOk bs = true) :
    euiDecodeChars (euiEncodeChars bs) = some bs := by
  induction bs with
  | nil => rfl
  | cons v rest ih =>
    simp only [bytesOk, List.all_cons, Bool.and_eq_true, decide_eq_true_eq] at hb
    have h1 : v / 16 % 16 < 16 := Nat.mod_lt _ (by omega)
    have h2 : v % 16 < 16 := Nat.mod_lt _ (by omega)
    have ih' := ih (by simp [bytesOk, hb.2])
    have hv : v / 16 % 16 * 16 + v % 16 = v := by
      have := hb.1
      omega
    simp [euiEncodeChars, euiDecodeChars, eui_digit_inv _ h1, eui_digit_inv _ h2, ih', hv]

theorem euiEncodeChars_length (bs : List Nat) :
    (euiEncodeChars bs).length = 2 * bs.length := by
  induction bs with
  | nil => rfl
  | cons v rest ih => simp [euiEncodeChars, ih]; omega

theorem euiDecode_encode {e : EUI64} (hb : bytesOk e.bytes = true)
    (hlen : e.bytes.length = 8) : euiDecode (euiEncode e) = some e.bytes := by
  have hl : (euiEncodeChars e.bytes).length = 16 := by
    rw [euiEncodeChars_length, hlen]
  simp only [euiDecode, euiEncode]
  have htl : (String.mk (euiEncodeChars e.bytes)).toList = euiEncodeChars e.bytes := rfl
  rw [htl, hl]
  simp [euiDecode_encode_chars hb]

theorem escapeChar_hextable {c : Nat} (hc : c ∈ hextable) :
    escapeChar (Char.ofNat c) = [c] := by
  fin_cases hc <;> decide

theorem escape_fold_hex (l : List Nat) (hl : ∀ c ∈ l, c ∈ hextable) :
    List.foldr (fun c acc => escapeChar c ++ acc) [] (l.map Char.ofNat) = l := by
  induction l with
  | nil => rfl
  | cons c rest ih =>
    simp only [List.map_cons, List.foldr_cons]
    rw [escapeChar_hextable (hl c (by simp)), ih (fun d hd => hl d (by simp [hd]))]
    rfl

theorem escapeString_hex (l : List Nat) (hl : ∀ c ∈ l, c ∈ hextable) :
    escapeString (String.mk (l.map Char.ofNat)) = l := by
  simp only [escapeString]
  exact escape_fold_hex l hl

theorem getInfo_elems_roundtrip (xs : List String) :
    decodeGetInfoElems (xs.map Json.str) = (xs, none) := by
  induction xs with
  | nil => rfl
  | cons s rest ih => simp [decodeGetInfoElems, ih]

theorem fuota_roundtrip {h : Hex} (hb : bytesOk h = true) :
    decodeFuotaJson (Json.str (hexEncodeString h)) = (h, none) := by
  have hesc : escapeString (hexEncodeString h) = hexEncodeBytes h :=
    escapeString_hex _ (fun c hc => hexEncode_mem hc)
  have hrender : Json.render (Json.str (hexEncodeString h)) =
      34 :: (hexEncodeBytes h ++ [34]) := by
    simp [Json.render, hesc]
  simp [decodeFuotaJson, hrender, Hex.unmarshalJSON, trimLead_cons, trimTrail_concat,
    hexDecode_encode hb]

theorem decPtrUint8_natCast (cur : Option Nat) {a : Nat} (ha : a < 256) :
    decPtrUint8 cur (Json.num a) = (some a, none) := by
  have h0 : (0 : Int) ≤ (a : Int) := Int.natCast_nonneg a
  have h1 : (a : Int) < 256 := by exact_mod_cast ha
  simp [decPtrUint8, h0, h1]

theorem decPtrUint32_natCast (cur : Option Nat) {a : Nat} (ha : a < 4294967296) :
    decPtrUint32 cur (Json.num a) = (some a, none) := by
  have h0 : (0 : Int) ≤ (a : Int) := Int.natCast_nonneg a
  have h1 : (a : Int) < 4294967296 := by exact_mod_cast ha
  simp [decPtrUint32, h0, h1]

theorem decInt32_inrange (cur : Int) {n : Int}
    (h1 : -2147483648 ≤ n) (h2 : n < 2147483648) :
    decInt32 cur (Json.num n) = (n, none) := by
  simp [decInt32, h1, h2]

theorem setconf_nil (p : SetConfRequestParam) : decodeSetConfFields p [] = (p, none) := rfl

theorem setconf_step_adr (p : SetConfRequestParam) (v : Json) (rest : List (String × Json)) :
    decodeSetConfFields p (("adrmode", v) :: rest) =
      ((decodeSetConfFields { p with adrMode := (decPtrUint8 p.adrMode v).1 } rest).1,
       firstErr (decPtrUint8 p.adrMode v).2
         (decodeSetConfFields { p with adrMode := (decPtrUint8 p.adrMode v).1 } rest).2) := rfl

theorem setconf_step_joineui (p : SetConfRequestParam) (v : Json) (rest : List (String × Json)) :
    decodeSetConfFields p (("joineui", v) :: rest) =
      ((decodeSetConfFields { p with joinEUI := (decEUI64 p.joinEUI v).1 } rest).1,
       firstErr (decEUI64 p.joinEUI v).2
         (decodeSetConfFields { p with joinEUI := (decEUI64 p.joinEUI v).1 } rest).2) := rfl

theorem setconf_step_interval (p : SetConfRequestParam) (v : Json) (rest : List (String × Json)) :
    decodeSetConfFields p (("interval", v) :: rest) =
      ((decodeSetConfFields { p with interval := (decPtrUint8 p.interval v).1 } rest).1,
       firstErr (decPtrUint8 p.interval v).2
         (decodeSetConfFields { p with interval := (decPtrUint8 p.interval v).1 } rest).2) := rfl

theorem setconf_step_region (p : SetConfRequestParam) (v : Json) (rest : List (String × Json)) :
    decodeSetConfFields p (("region", v) :: rest) =
      ((decodeSetConfFields { p with region := (decPtrUint8 p.region v).1 } rest).1,
       firstErr (decPtrUint8 p.region v).2
         (decodeSetConfFields { p with region := (decPtrUint8 p.region v).1 } rest).2) := rfl

theorem setconf_step_opmode (p : SetConfRequestParam) (v : Json) (rest : List (String × Json)) :
    decodeSetConfFields p (("opmode", v) :: rest) =
      ((decodeSetConfFields { p with opMode := (decPtrUint32 p.opMode v).1 } rest).1,
       firstErr (decPtrUint32 p.opMode v).2
         (decodeSetConfFields { p with opMode := (decPtrUint32 p.opMode v).1 } rest).2) := rfl

theorem decEUI64_enc {e : EUI64} (cur : EUI64)
    (heui : euiDecode (euiEncode e) = some e.bytes) :
    decEUI64 cur (Json.str (euiEncode e)) = (e, none) := by
  simp [decEUI64, heui]

theorem setconf_roundtrip {p : SetConfRequestParam} (hp : scParamOk p = true) :
    decodeSetConfFields {} (setConfMarshalFields p) = (p, none) := by
  obtain ⟨a, e, i, r, o⟩ := p
  simp only [scParamOk, Bool.and_eq_true, beq_iff_eq, decide_eq_true_eq] at hp
  obtain ⟨⟨⟨⟨⟨ha, hel⟩, heb⟩, hi⟩, hr⟩, ho⟩ := hp
  have heui : euiDecode (euiEncode e) = some e.bytes := euiDecode_encode heb hel
  rcases a with _ | a <;> rcases i with _ | i <;> rcases r with _ | r <;> rcases o with _ | o <;>
    simp only [decide_eq_true_eq] at ha hi hr ho <;>
    simp only [setConfMarshalFields, List.nil_append, List.append_nil, List.cons_append,
      setconf_step_adr, setconf_step_joineui, setconf_step_interval, setconf_step_region,
      setconf_step_opmode, setconf_nil, decEUI64_enc _ heui] <;>
    (try simp only [decPtrUint8_natCast _ ha]) <;>
    (try simp only [decPtrUint8_natCast _ hi]) <;>
    (try simp only [decPtrUint8_natCast _ hr]) <;>
    (try simp only [decPtrUint32_natCast _ ho]) <;>
    simp [firstErr]

theorem fd_nil (p : FileDoneRequestParam) : decodeFileDoneFields p [] = (p, none) := rfl

theorem fd_step_sid (p : FileDoneRequestParam) (v : Json) (rest : List (String × Json)) :
    decodeFileDoneFields p (("sid", v) :: rest) =
      ((decodeFileDoneFields { p with sid := (decInt32 p.sid v).1 } rest).1,
       firstErr (decInt32 p.sid v).2
         (decodeFileDoneFields { p with sid := (decInt32 p.sid v).1 } rest).2) := rfl

theorem fd_step_sctr (p : FileDoneRequestParam) (v : Json) (rest : List (String × Json)) :
    decodeFileDoneFields p (("sctr", v) :: rest) =
      ((decodeFileDoneFields { p with sctr := (decInt32 p.sctr v).1 } rest).1,
       firstErr (decInt32 p.sctr v).2
         (decodeFileDoneFields { p with sctr := (decInt32 p.sctr v).1 } rest).2) := rfl

theorem filedone_roundtrip {p : FileDoneRequestParam}
    (h1 : -2147483648 ≤ p.sid) (h2 : p.sid < 2147483648)
    (h3 : -2147483648 ≤ p.sctr) (h4 : p.sctr < 2147483648) :
    decodeFileDoneFields {} [("sid", Json.num p.sid), ("sctr", Json.num p.sctr)] = (p, none) := by
  obtain ⟨sid, sctr⟩ := p
  simp only [] at h1 h2 h3 h4
  simp only [fd_step_sid, fd_step_sctr, fd_nil, decInt32_inrange _ h1 h2,
    decInt32_inrange _ h3 h4]
  simp [firstErr]

/-! ## Envelope computation lemmas (definitional unfoldings of the decoder) -/

theorem unmarshal_env2_reset (j : Json) :
    Request.unmarshalJSON emptyRequest (envForm2 ResetRequestType j) =
      ({ type := ResetRequestType, param := some (.reset (decodeResetJson j).1) },
       (decodeResetJson j).2.map .malformedPayload) := rfl

theorem unmarshal_env2_getinfo (j : Json) :
    Request.unmarshalJSON emptyRequest (envForm2 GetInfoRequestType j) =
      ({ type := GetInfoRequestType, param := some (.getInfo (decodeGetInfoJson j).1) },
       (decodeGetInfoJson j).2.map .malformedPayload) := rfl

theorem unmarshal_env2_setconf (j : Json) :
    Request.unmarshalJSON emptyRequest (envForm2 SetConfRequestType j) =
      ({ type := SetConfRequestType, param := some (.setConf (decodeSetConfJson j).1) },
       (decodeSetConfJson j).2.map .malformedPayload) := rfl

theorem unmarshal_env2_filedone (j : Json) :
    Request.unmarshalJSON emptyRequest (envForm2 FileDoneRequestType j) =
      ({ type := FileDoneRequestType, param := some (.fileDone (decodeFileDoneJson j).1) },
       (decodeFileDoneJson j).2.map .malformedPayload) := rfl

theorem unmarshal_env2_fuota (j : Json) :
    Request.unmarshalJSON emptyRequest (envForm2 FUOTARequestType j) =
      ({ type := FUOTARequestType, param := some (.fuota (decodeFuotaJson j).1) },
       (decodeFuotaJson j).2.map .malformedPayload) := rfl

theorem unmarshal_env2_mute (j : Json) :
    Request.unmarshalJSON emptyRequest (envForm2 MuteRequestType j) =
      ({ type := MuteRequestType, param := none }, none) := rfl

theorem unmarshal_env2_rejoin (j : Json) :
    Request.unmarshalJSON emptyRequest (envForm2 RejoinRequestType j) =
      ({ type := RejoinRequestType, param := none }, none) := rfl

theorem decodeResetJson_natCast {p : Nat} (hp : p < 256) :
    decodeResetJson (Json.num p) = (p, none) := by
  have h0 : (0 : Int) ≤ (p : Int) := Int.natCast_nonneg p
  have h1 : (p : Int) < 256 := by exact_mod_cast hp
  simp [decodeResetJson, h0, h1]

/-! ## Claim theorems -/

/-- C1: for every supported discriminator (RESET, REJOIN, MUTE, GETINFO,
SETCONF, FILEDONE, FUOTA) and every well-formed `Request` of that variant,
decoding the JSON produced by encoding it yields the original request and
no error. -/
theorem c1_request_roundtrip (r : Request) (h : r.wellFormed = true) :
    Request.unmarshalJSON emptyRequest (Request.marshalJSON r) = (r, none) := by
  obtain ⟨t, po⟩ := r
  cases po with
  | none =>
    simp only [Request.wellFormed, Bool.or_eq_true, beq_iff_eq] at h
    rcases h with rfl | rfl <;> rfl
  | some param =>
    cases param with
    | reset p =>
      simp only [Request.wellFormed, Bool.and_eq_true, beq_iff_eq, decide_eq_true_eq] at h
      obtain ⟨rfl, hp⟩ := h
      have hm : Request.marshalJSON ⟨ResetRequestType, some (.reset p)⟩ =
          envForm2 ResetRequestType (Json.num p) := rfl
      rw [hm, unmarshal_env2_reset, decodeResetJson_natCast hp]
      rfl
    | getInfo xs =>
      simp only [Request.wellFormed, beq_iff_eq] at h
      obtain rfl := h
      have hm : Request.marshalJSON ⟨GetInfoRequestType, some (.getInfo xs)⟩ =
          envForm2 GetInfoRequestType (Json.arr (xs.map Json.str)) := rfl
      have hg : decodeGetInfoJson (Json.arr (xs.map Json.str)) = (xs, none) := by
        simp [decodeGetInfoJson, getInfo_elems_roundtrip]
      rw [hm, unmarshal_env2_getinfo, hg]
      rfl
    | setConf p =>
      simp only [Request.wellFormed, Bool.and_eq_true, beq_iff_eq] at h
      obtain ⟨rfl, hp⟩ := h
      have hm : Request.marshalJSON ⟨SetConfRequestType, some (.setConf p)⟩ =
          envForm2 SetConfRequestType (Json.obj (setConfMarshalFields p)) := rfl
      have hs : decodeSetConfJson (Json.obj (setConfMarshalFields p)) = (p, none) := by
        simp only [decodeSetConfJson]
        exact setconf_roundtrip hp
      rw [hm, unmarshal_env2_setconf, hs]
      rfl
    | fileDone p =>
      simp only [Request.wellFormed, Bool.and_eq_true, beq_iff_eq, decide_eq_true_eq] at h
      obtain ⟨⟨rfl, hsid⟩, hsctr⟩ := h
      have hm : Request.marshalJSON ⟨FileDoneRequestType, some (.fileDone p)⟩ =
          envForm2 FileDoneRequestType
            (Json.obj [("sid", Json.num p.sid), ("sctr", Json.num p.sctr)]) := rfl
      have hf : decodeFileDoneJson
          (Json.obj [("sid", Json.num p.sid), ("sctr", Json.num p.sctr)]) = (p, none) := by
        simp only [decodeFileDoneJson]
        exact filedone_roundtrip hsid.1 hsid.2 hsctr.1 hsctr.2
      rw [hm, unmarshal_env2_filedone, hf]
      rfl
    | fuota hx =>
      simp only [Request.wellFormed, Bool.and_eq_true, beq_iff_eq] at h
      obtain ⟨rfl, hb⟩ := h
      have hm : Request.marshalJSON ⟨FUOTARequestType, some (.fuota hx)⟩ =
          envForm2 FUOTARequestType (Json.str (hexEncodeString hx)) := rfl
      rw [hm, unmarshal_env2_fuota, fuota_roundtrip hb]
      rfl

/-- Witness for C1 at a concrete well-formed SETCONF request. -/
theorem c1_request_roundtrip_witness :
    Request.wellFormed
      ⟨"SETCONF", some (.setConf ⟨some 1, ⟨[1, 2, 3, 4, 5, 6, 7, 8]⟩, none, some 2, none⟩)⟩ =
        true ∧
    Request.unmarshalJSON emptyRequest
      (Request.marshalJSON
        ⟨"SETCONF", some (.setConf ⟨some 1, ⟨[1, 2, 3, 4, 5, 6, 7, 8]⟩, none, some 2, none⟩)⟩) =
      (⟨"SETCONF", some (.setConf ⟨some 1, ⟨[1, 2, 3, 4, 5, 6, 7, 8]⟩, none, some 2, none⟩)⟩,
       none) :=
  ⟨by decide, c1_request_roundtrip _ (by decide)⟩

/-- C2: hex round-trip in both directions.  Decoding the encoding of any
byte sequence returns exactly those bytes with no error; encoding the
decoding of any even-length text of hex digits returns the lowercase form
of that text (inside the quoting the codec adds). -/
theorem c2_hex_roundtrip :
    (∀ b : List Nat, bytesOk b = true →
       Hex.unmarshalJSON (Hex.marshalJSON b) = (b, none)) ∧
    (∀ s : List Nat, s.length % 2 = 0 → s.all isHexByte = true →
       Hex.marshalJSON (Hex.unmarshalJSON s).1 = 34 :: (s.map toLowerByte ++ [34])) := by
  constructor
  · intro b hb
    exact hex_marshal_unmarshal hb
  · intro s hlen hhex
    simp only [Hex.unmarshalJSON, trim_of_all_hex hhex, Hex.marshalJSON]
    rw [hexEncode_decode hlen hhex]

/-- Witness for C2 at concrete inputs: the bytes `[0, 171, 255]` and the
mixed-case hex text `"AbC9"`. -/
theorem c2_hex_roundtrip_witness :
    (bytesOk [0, 171, 255] = true ∧
      Hex.unmarshalJSON (Hex.marshalJSON [0, 171, 255]) = ([0, 171, 255], none)) ∧
    ((strBytes "AbC9").length % 2 = 0 ∧ (strBytes "AbC9").all isHexByte = true ∧
      Hex.marshalJSON (Hex.unmarshalJSON (strBytes "AbC9")).1 =
        34 :: ((strBytes "AbC9").map toLowerByte ++ [34])) :=
  ⟨⟨by decide, c2_hex_roundtrip.1 _ (by decide)⟩,
   ⟨by decide, by decide, c2_hex_roundtrip.2 _ (by decide) (by decide)⟩⟩

/-- C3: hex encoding is total and canonical: for every byte sequence it
produces the quote byte, two lowercase hex digits per input byte with no
separator or prefix, and the closing quote; the empty sequence encodes to
the empty quoted string. -/
theorem c3_hex_encode_total (h : List Nat) :
    Hex.marshalJSON h = 34 :: (hexEncodeBytes h ++ [34]) ∧
    (hexEncodeBytes h).length = 2 * h.length ∧
    (hexEncodeBytes h).all (fun c => hextable.contains c) = true ∧
    Hex.marshalJSON [] = [34, 34] :=
  ⟨rfl, hexEncode_length h, hexEncode_all_hextable h, rfl⟩

/-- C4: hex decoding strips one leading and one trailing quote if present,
then fails exactly when the remaining text has odd length or contains a
non-hex byte; in particular the odd-length text `"abc"` fails with the
length error. -/
theorem c4_hex_decode_errors (b : List Nat) :
    Hex.unmarshalJSON b = hexDecodeBytes (trimTrailQuote (trimLeadQuote b)) ∧
    (Hex.unmarshalJSON b).2.isNone =
      (decide ((trimTrailQuote (trimLeadQuote b)).length % 2 = 0) &&
        (trimTrailQuote (trimLeadQuote b)).all isHexByte) ∧
    (Hex.unmarshalJSON (strBytes "abc")).2 = some HexErr.errLength :=
  ⟨rfl, hexDecode_none_iff _, by decide⟩

theorem parseBase_env1 (t : String) : parseBase (envForm1 t) = some ⟨t, none⟩ := rfl

theorem parseBase_env2 (t : String) (p : Json) :
    parseBase (envForm2 t p) = some ⟨t, some p⟩ := rfl

/-- C5: a discriminator outside the closed set fails with
`InvalidRequestType` carrying the offending string, for any payload or no
payload at all, and the payload is never interpreted. -/
theorem c5_unknown_discriminator (t : String) (p : Json)
    (h : knownRequestType t = false) :
    Request.unmarshalJSON emptyRequest (envForm1 t) =
      (⟨t, none⟩, some (.invalidRequestType t)) ∧
    Request.unmarshalJSON emptyRequest (envForm2 t p) =
      (⟨t, none⟩, some (.invalidRequestType t)) := by
  simp only [knownRequestType, Bool.or_eq_false_iff] at h
  obtain ⟨⟨⟨⟨⟨⟨h1, h2⟩, h3⟩, h4⟩, h5⟩, h6⟩, h7⟩ := h
  constructor <;>
    simp [Request.unmarshalJSON, parseBase_env1, parseBase_env2, h1, h2, h3, h4, h5, h6, h7,
      emptyRequest]

/-- Witness for C5 at the spec's example `{"type":"FOO","param":{}}`. -/
theorem c5_unknown_discriminator_witness :
    knownRequestType "FOO" = false ∧
    Request.unmarshalJSON emptyRequest (envForm2 "FOO" (Json.obj [])) =
      (⟨"FOO", none⟩, some (.invalidRequestType "FOO")) :=
  ⟨by decide, (c5_unknown_discriminator "FOO" (Json.obj []) (by decide)).2⟩

/-- C7: REJOIN and MUTE ignore any payload: with or without a `param`
member the decode succeeds and produces the identical parameterless
request. -/
theorem c7_no_payload_ignored (p : Json) :
    Request.unmarshalJSON emptyRequest (envForm1 MuteRequestType) =
      (⟨MuteRequestType, none⟩, none) ∧
    Request.unmarshalJSON emptyRequest (envForm2 MuteRequestType p) =
      (⟨MuteRequestType, none⟩, none) ∧
    Request.unmarshalJSON emptyRequest (envForm1 RejoinRequestType) =
      (⟨RejoinRequestType, none⟩, none) ∧
    Request.unmarshalJSON emptyRequest (envForm2 RejoinRequestType p) =
      (⟨RejoinRequestType, none⟩, none) ∧
    Request.unmarshalJSON emptyRequest (envForm2 MuteRequestType (Json.str "ignored")) =
      Request.unmarshalJSON emptyRequest (envForm1 MuteRequestType) :=
  ⟨rfl, unmarshal_env2_mute p, rfl, unmarshal_env2_rejoin p, rfl⟩

/-- C10: an envelope without a `param` member fails for every
payload-carrying discriminator (the decoder unconditionally interprets the
missing payload, raising the syntax error of a nil raw message) and
succeeds exactly for REJOIN and MUTE. -/
theorem c10_missing_param :
    Request.unmarshalJSON emptyRequest (envForm1 ResetRequestType) =
      (⟨ResetRequestType, some (.reset 0)⟩, some (.malformedPayload .missing)) ∧
    Request.unmarshalJSON emptyRequest (envForm1 GetInfoRequestType) =
      (⟨GetInfoRequestType, some (.getInfo [])⟩, some (.malformedPayload .missing)) ∧
    Request.unmarshalJSON emptyRequest (envForm1 SetConfRequestType) =
      (⟨SetConfRequestType, some (.setConf {})⟩, some (.malformedPayload .missing)) ∧
    Request.unmarshalJSON emptyRequest (envForm1 FileDoneRequestType) =
      (⟨FileDoneRequestType, some (.fileDone {})⟩, some (.malformedPayload .missing)) ∧
    Request.unmarshalJSON emptyRequest (envForm1 FUOTARequestType) =
      (⟨FUOTARequestType, some (.fuota [])⟩, some (.malformedPayload .missing)) ∧
    Request.unmarshalJSON emptyRequest (envForm1 RejoinRequestType) =
      (⟨RejoinRequestType, none⟩, none) ∧
    Request.unmarshalJSON emptyRequest (envForm1 MuteRequestType) =
      (⟨MuteRequestType, none⟩, none) :=
  ⟨rfl, rfl, rfl, rfl, rfl, rfl, rfl⟩

/-- C8 counterexample: decoding `{"type":"SETCONF","param":{"region":2}}`
does NOT leave `JoinEUI` absent — the field has no absent state, is set to
the zero EUI64, and re-encoding the decoded request emits a `joineui`
member (the `omitempty` option never omits an 8-byte array). -/
theorem c8_joineui_counterexample :
    (Request.unmarshalJSON emptyRequest
        (envForm2 SetConfRequestType (Json.obj [("region", Json.num 2)]))).1.param =
      some (.setConf { region := some 2, joinEUI := EUI64.zero }) ∧
    Request.marshalJSON
        (Request.unmarshalJSON emptyRequest
          (envForm2 SetConfRequestType (Json.obj [("region", Json.num 2)]))).1 =
      Json.obj [("type", Json.str "SETCONF"),
        ("param",
          Json.obj [("joineui", Json.str "0000000000000000"), ("region", Json.num 2)])] :=
  ⟨rfl, rfl⟩

/-- C8 amended: decoding `{"type":"SETCONF","param":{"region":2}}` yields a
request in which only `Region` among the optional pointer fields (ADR mode,
interval, region, operating mode) is populated; `JoinEUI`, a plain value
field with no absent state, holds the zero EUI64. -/
theorem c8_optional_fields_amended :
    Request.unmarshalJSON emptyRequest
        (envForm2 SetConfRequestType (Json.obj [("region", Json.num 2)])) =
      (⟨SetConfRequestType,
         some (.setConf ⟨none, EUI64.zero, none, some 2, none⟩)⟩, none) :=
  rfl

/-- C9 counterexample: decode is not all-or-nothing.  Decoding
`{"type":"FOO","param":{}}` fails yet leaves the receiver's `Type` field
populated with `"FOO"`; hex-decoding `"abcx"` fails yet assigns the
partially decoded byte `0xab` to the receiver. -/
theorem c9_not_atomic_counterexample :
    ((Request.unmarshalJSON emptyRequest (envForm2 "FOO" (Json.obj []))).2 ≠ none ∧
     (Request.unmarshalJSON emptyRequest (envForm2 "FOO" (Json.obj []))).1.type = "FOO" ∧
     (Request.unmarshalJSON emptyRequest (envForm2 "FOO" (Json.obj []))).1 ≠ emptyRequest) ∧
    ((Hex.unmarshalJSON (strBytes "abcx")).2 ≠ none ∧
     (Hex.unmarshalJSON (strBytes "abcx")).1 = [171]) := by
  refine ⟨⟨?_, rfl, ?_⟩, ?_, rfl⟩ <;> decide

/-- C9 amended: every error is returned to the immediate caller and none is
swallowed; an envelope-parse failure leaves the receiver unchanged, but
after a successful envelope parse the receiver's `Type` is always set to
the wire discriminator, error or not — including for `{"type":null}`,
whose `null` is a no-op for the string field so the envelope parses, the
receiver's `Type` is overwritten with the empty discriminator and decode
fails with `InvalidRequestType ""` (keys bind case-insensitively, so
`{"TYPE":"MUTE"}` decodes as MUTE); a failing hex decode returns the bytes
decoded before the offending position together with the error. -/
theorem c9_amended_error_reporting :
    (∀ (r : Request) (j : Json), parseBase j = none →
       Request.unmarshalJSON r j = (r, some .malformedEnvelope)) ∧
    (∀ (r : Request) (j : Json) (br : baseRequest), parseBase j = some br →
       (Request.unmarshalJSON r j).1.type = br.type) ∧
    (∀ s t : List Nat, s.length % 2 = 0 → s.all isHexByte = true →
       hexDecodeBytes (s ++ t) =
         ((hexDecodeBytes s).1 ++ (hexDecodeBytes t).1, (hexDecodeBytes t).2)) ∧
    Request.unmarshalJSON ⟨"OLD", none⟩ (Json.obj [("type", Json.null)]) =
      (⟨"", none⟩, some (.invalidRequestType "")) ∧
    Request.unmarshalJSON emptyRequest (Json.obj [("TYPE", Json.str "MUTE")]) =
      (⟨"MUTE", none⟩, none) := by
  refine ⟨?_, ?_, ?_, rfl, rfl⟩
  · intro r j hj
    simp [Request.unmarshalJSON, hj]
  · intro r j br hj
    simp only [Request.unmarshalJSON, hj]
    split_ifs <;> rfl
  · intro s t h1 h2
    exact hexDecode_append t h1 h2

/-- Witness for the amended C9 at concrete inputs. -/
theorem c9_amended_witness :
    (parseBase (Json.str "x") = none ∧
      Request.unmarshalJSON emptyRequest (Json.str "x") =
        (emptyRequest, some .malformedEnvelope)) ∧
    (parseBase (envForm2 "FOO" (Json.obj [])) = some ⟨"FOO", some (Json.obj [])⟩ ∧
      (Request.unmarshalJSON emptyRequest (envForm2 "FOO" (Json.obj []))).1.type = "FOO") ∧
    ((strBytes "ab").length % 2 = 0 ∧ (strBytes "ab").all isHexByte = true ∧
      hexDecodeBytes (strBytes "ab" ++ strBytes "cx") =
        ((hexDecodeBytes (strBytes "ab")).1 ++ (hexDecodeBytes (strBytes "cx")).1,
         (hexDecodeBytes (strBytes "cx")).2)) :=
  ⟨⟨rfl, c9_amended_error_reporting.1 _ _ rfl⟩,
   ⟨parseBase_env2 "FOO" (Json.obj []),
    c9_amended_error_reporting.2.1 emptyRequest (envForm2 "FOO" (Json.obj []))
      ⟨"FOO", some (Json.obj [])⟩ (parseBase_env2 "FOO" (Json.obj []))⟩,
   ⟨by decide, by decide, c9_amended_error_reporting.2.2.1 _ _ (by decide) (by decide)⟩⟩

/-! ## Payload nonconformance lemmas for C6 -/

